import Mathlib

/-!
Shallow embedding of `src/add_to_bring.py` (cooklang-bring), a script that
turns Cooklang recipe files into a shopping list (via the external `cook`
CLI) and submits the items to the Bring! shopping-list service.

The JSON shopping list produced by `cook shopping-list -f json` is a
sequence of category objects, each with a `category` name and an `items`
sequence; each item has a `name` and a `quantity` sequence; each quantity
entry has a `value` object (`{"type": "number", "value": {"value": n}}`
when numeric) and an optional `unit` string.  Numeric values are modelled
as `Int` (the integral JSON numbers the script's formatting logic branches
on; Python `str` of an int agrees with `toString` on `Int`).  Python
truthiness of the numeric value (`if num_value:`) is `n ≠ 0`; truthiness
of a string is `≠ ""`.
-/

namespace CooklangBring

/-! ## Python string primitives

The script manipulates Python `str` values with `lower`, `strip`,
`startswith`, string sorting and `float` parsing.  These are modelled here
on the character list underlying a `String` (all strings involved are
ASCII, where Python and these models agree). -/

/-- Python `str.lower` on one character (ASCII letters; the category and
list names compared by the script are ASCII). -/
def char_lower (c : Char) : Char :=
  if 65 ≤ c.toNat ∧ c.toNat ≤ 90 then Char.ofNat (c.toNat + 32) else c

/-- Python `str.lower`. -/
def py_lower (s : String) : String :=
  String.mk (s.toList.map char_lower)

/-- Python `str.startswith`. -/
def starts_with (s p : String) : Bool :=
  p.toList.isPrefixOf s.toList

/-- Python `str.endswith`. -/
def ends_with (s p : String) : Bool :=
  p.toList.reverse.isPrefixOf s.toList.reverse

/-- Python `str.strip()`: remove leading and trailing whitespace. -/
def py_strip (s : String) : String :=
  String.mk (((s.toList.dropWhile Char.isWhitespace).reverse.dropWhile
    Char.isWhitespace).reverse)

/-- Python string `<=` (lexicographic by code point), on character lists:
the order used by `sorted` on a list of `str`. -/
def chars_le : List Char → List Char → Bool
  | [], _ => true
  | _ :: _, [] => false
  | a :: as, b :: bs =>
    if a.toNat = b.toNat then chars_le as bs
    else decide (a.toNat < b.toNat)

/-- Python string `<=`. -/
def py_str_le (s t : String) : Bool :=
  chars_le s.toList t.toList

/-- Insert a string into an already ascending list, before the first
element it is `<=` to. -/
def ordered_insert (s : String) : List String → List String
  | [] => [s]
  | t :: rest =>
    if py_str_le s t then s :: t :: rest else t :: ordered_insert s rest

/-- Python `sorted` on a list of strings (as an insertion sort; `sorted`
returns an ascending permutation of its input, which is all the script
relies on). -/
def py_sorted : List String → List String
  | [] => []
  | s :: rest => ordered_insert s (py_sorted rest)

/-- The `value` field of a quantity entry, as inspected at
`src/add_to_bring.py:132-134`:
`number n` models `{"type": "number", "value": {"value": n}}`;
`numberNoInner` models a value whose `type` is `"number"` but whose nested
number is missing (so `value.get('value', {}).get('value', '')` yields the
falsy `''`); `other` models any value whose `type` is not `"number"`
(including a missing `value` object, for which `.get('value', {})` yields
`{}` whose `type` is absent). -/
inductive QtyValue
  | number (n : Int)
  | numberNoInner
  | other
deriving DecidableEq, Repr

/-- A quantity entry: `value` object plus `unit` string
(`qty.get('unit', '')`; a missing unit is the empty string). -/
structure Qty where
  value : QtyValue
  unit : String
deriving DecidableEq, Repr

/-- A shopping-list item: `name` and `quantity` list
(`item.get('name', '')`, `item.get('quantity', [])`). -/
structure Item where
  name : String
  quantity : List Qty
deriving DecidableEq, Repr

/-- A shopping-list category: `category` name and `items`
(`cat.get('category', '')`, `category.get('items', [])`). -/
structure Category where
  category : String
  items : List Item
deriving DecidableEq, Repr

/-- The `parts` list built by the `for qty in quantity_list` loop of
`format_quantity` (`src/add_to_bring.py:130-141`): an entry contributes
`f"{num_value} {unit}"` when the unit string is truthy, `str(num_value)`
otherwise, and only when its value has `type == 'number'` and the nested
number is truthy (`if num_value:`). -/
def format_parts : List Qty → List String
  | [] => []
  | qty :: rest =>
    match qty.value with
    | .number n =>
      if n = 0 then format_parts rest
      else if qty.unit = "" then toString n :: format_parts rest
      else (toString n ++ " " ++ qty.unit) :: format_parts rest
    | .numberNoInner => format_parts rest
    | .other => format_parts rest

/-- `format_quantity` (`src/add_to_bring.py:117-143`): returns `""` for an
empty (falsy) list, otherwise `", ".join(parts)`. -/
def format_quantity (quantity_list : List Qty) : String :=
  if quantity_list.isEmpty then ""
  else String.intercalate ", " (format_parts quantity_list)

/-- `filter_staples` (`src/add_to_bring.py:101-114`):
`[cat for cat in shopping_list if cat.get('category', '').lower() != 'staples']`. -/
def filter_staples (shopping_list : List Category) : List Category :=
  shopping_list.filter fun cat => py_lower cat.category ≠ "staples"

/-! ## Scaling-factor prompt (`get_scaling_factor`, `src/add_to_bring.py:336-363`) -/

/-- Value of a run of decimal digits. -/
def digits_val (l : List Char) : Nat :=
  l.foldl (fun n c => n * 10 + (c.toNat - 48)) 0

/-- Continuation of a Python digit run after its leading digit: digits,
with every underscore separator standing between two digits. -/
def run_after_digit : List Char → Bool
  | [] => true
  | '_' :: [] => false
  | '_' :: d :: rest => d.isDigit && run_after_digit (d :: rest)
  | c :: rest => c.isDigit && run_after_digit rest

/-- A digit run of a Python numeric literal: nonempty, begins and ends
with a digit, single underscores allowed between digits (`1_0` parses;
`_1`, `1_` and `1__0` raise `ValueError`). -/
def valid_digit_run : List Char → Bool
  | [] => false
  | c :: rest => c.isDigit && run_after_digit rest

/-- Remove the underscore separators of a digit run. -/
def strip_unders (l : List Char) : List Char :=
  l.filter (fun c => c != '_')

/-- Mantissa of a Python float literal: `digits`, `digits.`,
`digits.digits` or `.digits`, each digit part a valid run (`"1."` and
`".5"` parse, `"."` and `""` do not; a second `.` or any stray character
is rejected because it can appear in no valid run). -/
def parse_mantissa (l : List Char) : Option ℚ :=
  let intp := l.takeWhile (fun c => c != '.')
  match l.dropWhile (fun c => c != '.') with
  | [] =>
    if valid_digit_run intp then some ((digits_val (strip_unders intp) : ℚ))
    else none
  | '.' :: frac =>
    if intp.isEmpty && frac.isEmpty then none
    else if !intp.isEmpty && !valid_digit_run intp then none
    else if !frac.isEmpty && !valid_digit_run frac then none
    else
      some ((digits_val (strip_unders intp) : ℚ)
        + (digits_val (strip_unders frac) : ℚ) / 10 ^ (strip_unders frac).length)
  | _ => none

/-- Exponent of a Python float literal (the part after `e`/`E`): an
optional sign followed by a digit run. -/
def parse_exp : List Char → Option Int
  | '-' :: rest =>
    if valid_digit_run rest then some (-(digits_val (strip_unders rest) : Int))
    else none
  | '+' :: rest =>
    if valid_digit_run rest then some ((digits_val (strip_unders rest) : Int))
    else none
  | l =>
    if valid_digit_run l then some ((digits_val (strip_unders l) : Int))
    else none

/-- A Python float numeric literal: mantissa with an optional `e`/`E`
exponent, its value kept as an exact rational. -/
def py_float_num (l : List Char) : Option ℚ :=
  let mant := l.takeWhile (fun c => c != 'e' && c != 'E')
  match l.dropWhile (fun c => c != 'e' && c != 'E') with
  | [] => parse_mantissa mant
  | _ :: expPart =>
    match parse_mantissa mant, parse_exp expPart with
    | some m, some e =>
      some (if 0 ≤ e then m * 10 ^ e.toNat else m / 10 ^ (-e).toNat)
    | _, _ => none

/-- Result of a successful Python `float(s)`: NaN, a signed infinity, or
a finite value.  Finite values are kept as exact rationals: the rounding
of an in-range decimal literal to an IEEE double never changes the sign
tests this program performs on it, and exponents extreme enough to
overflow to infinity or underflow to zero are not modelled. -/
inductive PyFloat
  | nan
  | inf (negative : Bool)
  | finite (val : ℚ)
deriving DecidableEq, Repr

/-- Body of `float(s)` after the optional sign: the case-insensitive
special forms `nan`, `inf` and `infinity` (the sign of a NaN is
irrelevant to every comparison), or a numeric literal. -/
def py_float_body (negative : Bool) (l : List Char) : Option PyFloat :=
  let low := l.map char_lower
  if low = ['n', 'a', 'n'] then some .nan
  else if low = ['i', 'n', 'f'] ∨ low = ['i', 'n', 'f', 'i', 'n', 'i', 't', 'y']
  then some (.inf negative)
  else (py_float_num l).map fun q => .finite (if negative then -q else q)

/-- Model of Python `float(s)` on a pre-stripped string: an optional
sign, then `nan`/`inf`/`infinity` (case-insensitive) or a decimal literal
with optional fraction, optional `e`/`E` exponent and underscore
separators between digits.  `none` models a raised `ValueError`. -/
def py_float (s : String) : Option PyFloat :=
  match s.toList with
  | '-' :: rest => py_float_body true rest
  | '+' :: rest => py_float_body false rest
  | l => py_float_body false l

/-- Python `x <= 0` on a parsed float, the guard at
`src/add_to_bring.py:358`: every comparison with NaN is False; negative
infinity is `<= 0` and positive infinity is not; finite values compare as
rationals. -/
def py_le_zero : PyFloat → Bool
  | .nan => false
  | .inf negative => negative
  | .finite q => q ≤ 0

/-- Python `x > 0`, the comparison in which the claim states its
positivity invariant: False for NaN. -/
def py_gt_zero : PyFloat → Bool
  | .nan => false
  | .inf negative => !negative
  | .finite q => 0 < q

/-- One iteration of the `while True` loop of `get_scaling_factor`
(`src/add_to_bring.py:350-363`) on the line read from the user (the code
applies `.strip()` first): `some v` when the iteration returns `v` (empty
input defaults to `1.0`; a value passing the `scale <= 0` guard is
returned), `none` when it prints a complaint and re-prompts
(`ValueError`, or `scale <= 0` true). -/
def scale_step (input : String) : Option PyFloat :=
  if py_strip input = "" then some (.finite 1)
  else
    match py_float (py_strip input) with
    | some scale => if py_le_zero scale then none else some scale
    | none => none

/-- `get_scaling_factor`, run against the sequence of lines the user will
type: the loop consumes lines until one is accepted and returns that value;
if every supplied line is rejected the loop is still waiting (`none`). -/
def get_scaling_factor : List String → Option PyFloat
  | [] => none
  | input :: rest =>
    match scale_step input with
    | some v => some v
    | none => get_scaling_factor rest

/-! ## External generator adapter (`generate_shopping_list`,
`src/add_to_bring.py:61-98`) -/

/-- Outcome of the `subprocess.run(['cook', 'shopping-list', '-f', 'json', ...],
check=True)` call: `notFound` models `FileNotFoundError` (the `cook` binary
is missing), `error stderr` models `subprocess.CalledProcessError` (non-zero
exit; with `check=True` the `result.returncode != 0` branch at line 82 is
unreachable), `success stdout` models a zero-exit run. -/
inductive CookResult
  | notFound
  | error (stderr : String)
  | success (stdout : String)
deriving DecidableEq, Repr

/-- Which fatal path `generate_shopping_list` took before `sys.exit(1)`. -/
inductive GenError
  | toolNotFound
  | toolFailed (stderr : String)
  | parseFailed
deriving DecidableEq, Repr

/-- Result of `generate_shopping_list`: either `sys.exit(exitCode)` after
printing the error, or the parsed list returned to the caller. -/
inductive GenOutcome
  | fatal (exitCode : Nat) (err : GenError)
  | ok (shopping_list : List Category)
deriving DecidableEq, Repr

/-- `generate_shopping_list` (`src/add_to_bring.py:61-98`), as a function of
the subprocess outcome and of `json.loads` (modelled as an oracle
`parseJson` returning `none` exactly when `json.JSONDecodeError` is raised).
Each `except` clause prints its message and calls `sys.exit(1)`; on success
the parsed structure is returned.  The function runs the tool exactly once:
no branch re-invokes it. -/
def generate_shopping_list (run : CookResult)
    (parseJson : String → Option (List Category)) : GenOutcome :=
  match run with
  | .notFound => .fatal 1 .toolNotFound
  | .error stderr => .fatal 1 (.toolFailed stderr)
  | .success stdout =>
    match parseJson stdout with
    | none => .fatal 1 .parseFailed
    | some shopping_list => .ok shopping_list

/-! ## Kitchen scanner (`get_kitchens`, `src/add_to_bring.py:261-276`) -/

/-- An entry of the recipe root directory as seen by `recipes_dir.iterdir()`:
its name, whether it is a directory, and (for directories) the file names
inside it. -/
structure DirEntry where
  name : String
  isDir : Bool
  files : List String
deriving DecidableEq, Repr

/-- `list(item.glob('*.cook'))` is non-empty: some file name in the
directory ends with `.cook`. -/
def has_cook_file (files : List String) : Bool :=
  files.any (fun f => ends_with f ".cook")

/-- `get_kitchens` (`src/add_to_bring.py:261-276`): collect the names of
immediate subdirectories not starting with `.` or `_` that contain at least
one `*.cook` file, then `sorted(kitchens)`.  `iterdir()`'s arbitrary
enumeration order is the order of `root`; the final sort makes the result
independent of it. -/
def get_kitchens (root : List DirEntry) : List String :=
  py_sorted
    (root.filterMap fun item =>
      if item.isDir ∧ ¬(starts_with item.name ".") = true
          ∧ ¬(starts_with item.name "_") = true ∧ has_cook_file item.files
      then some item.name else none)

/-! ## Bring! sink adapter (`add_to_bring`, `src/add_to_bring.py:146-224`) -/

/-- One list of the Bring! account, as returned by `bring.loadLists()`:
a `name` and an opaque `listUuid`. -/
structure BringList where
  name : String
  listUuid : String
deriving DecidableEq, Repr

/-- Result of the target-list resolution step of `add_to_bring`
(`src/add_to_bring.py:166-187`): `fatalNoLists` models the
`sys.exit(1)` taken when the account has no lists; otherwise the chosen
list together with whether the `Warning: List ... not found` message was
printed. -/
inductive SelectResult
  | fatalNoLists
  | selected (target : BringList) (warned : Bool)
deriving DecidableEq, Repr

/-- Target-list resolution (`src/add_to_bring.py:166-187`): with a truthy
`list_name`, scan for the first list whose lower-cased name equals the
lower-cased request; fall back to `lists[0]` with a warning when no list
matches; with a falsy (empty) `list_name`, take `lists[0]` silently.
Note the Python code checks for an empty `lists` before the name match, so
an empty account is fatal regardless of `list_name`. -/
def select_target_list (lists : List BringList) (list_name : String) :
    SelectResult :=
  match lists with
  | [] => .fatalNoLists
  | first :: _ =>
    if list_name = "" then .selected first false
    else
      match lists.find? (fun lst => py_lower lst.name == py_lower list_name) with
      | some target => .selected target false
      | none => .selected first true

/-- One attempted `bring.saveItem` call of the submission loop: the item
name, the formatted specification passed as free text, and whether the call
succeeded (the `try` body completed) or raised (the `except` printed a
failure line). -/
structure SubmitEvent where
  name : String
  spec : String
  succeeded : Bool
deriving DecidableEq, Repr

/-- The items of all categories in iteration order of the nested
`for category in shopping_list: for item in items:` loop
(`src/add_to_bring.py:194-201`). -/
def all_items (shopping_list : List Category) : List Item :=
  shopping_list.flatMap (·.items)

/-- The per-item submission loop of `add_to_bring`
(`src/add_to_bring.py:201-217`) over the remaining items, where `i` is the
number of `saveItem` calls already attempted and `ok` tells, for each
attempt index, whether `bring.saveItem` returns normally (`true`) or raises
(`false`; the `except Exception` clause prints and the loop continues).
Returns the final `total_items` counter together with the ordered trace of
attempts. -/
def submit_loop : List Item → (Nat → Bool) → Nat → Nat × List SubmitEvent
  | [], _, _ => (0, [])
  | item :: rest, ok, i =>
    let spec := format_quantity item.quantity
    let (n, tr) := submit_loop rest ok (i + 1)
    (if ok i then n + 1 else n, ⟨item.name, spec, ok i⟩ :: tr)

/-- The submission phase of `add_to_bring` over an already-filtered
shopping list: every item of every category is attempted in order, and the
reported count is the final `total_items`. -/
def submit_items (shopping_list : List Category) (ok : Nat → Bool) :
    Nat × List SubmitEvent :=
  submit_loop (all_items shopping_list) ok 0

/-! ## Interactive mode, list phase (`interactive_mode`,
`src/add_to_bring.py:494-531`) -/

/-- What happens in `interactive_mode` after the shopping list has been
generated: `exitEmptyGenerated` models the `sys.exit(0)` at line 503, taken
when the generated list is empty (falsy) *before* staples filtering;
`sendPrompt filtered` models reaching the `Send to Bring! Shopping List?`
(y/n) prompt at line 517, carrying the staples-filtered list that would be
submitted. -/
inductive InteractiveListOutcome
  | exitEmptyGenerated
  | sendPrompt (filtered : List Category)
deriving DecidableEq, Repr

/-- The list phase of `interactive_mode` (`src/add_to_bring.py:499-519`):
the only early exit is on an empty *generated* list; otherwise staples are
filtered, the preview is shown, and control always reaches the send
prompt — there is no emptiness check after `filter_staples`. -/
def interactive_list_phase (shopping_list : List Category) :
    InteractiveListOutcome :=
  if shopping_list.isEmpty then .exitEmptyGenerated
  else .sendPrompt (filter_staples shopping_list)

/-! ## Entry point and interrupt handling (`main`,
`src/add_to_bring.py:534-652`) -/

/-- How a run of `main` ends when a `KeyboardInterrupt` may occur at a
blocking point: `exit code` models `sys.exit(code)` after a printed
message; `uncaughtInterrupt` models a `KeyboardInterrupt` propagating out
of `main` (Python then prints a traceback and exits with a non-zero,
signal-derived status); `completed` models a run the user never
interrupts. -/
inductive MainOutcome
  | exit (code : Nat)
  | uncaughtInterrupt
  | completed
deriving DecidableEq, Repr

/-- Interrupt handling of `main` (`src/add_to_bring.py:534-649`) as a
function of the positional `recipes` arguments and of whether the user
interrupts during the run.  With no positional arguments (both the
`len(sys.argv) == 1` path at lines 536-542 and the `not args.recipes` path
at lines 596-602), the call to `interactive_mode` is wrapped in
`try/except KeyboardInterrupt`, which prints `Cancelled by user.` and calls
`sys.exit(0)`.  The direct path (lines 604-649: `generate_shopping_list`,
`load_config`, `add_to_bring`) has no such handler, so an interrupt there
propagates. -/
def main_interrupt_model (recipes : List String) (interrupted : Bool) :
    MainOutcome :=
  if recipes.isEmpty then
    if interrupted then .exit 0 else .completed
  else
    if interrupted then .uncaughtInterrupt else .completed

/-! ## Spec-side description of the quantity formatter

Stated from the words of the spec (§4.4), to be compared with the
source-derived `format_quantity`. -/

/-- Rendering of one quantity entry as the spec describes it, amended for
the zero case the code actually implements: an entry carrying a nonzero
numeric value renders as `<value> <unit>` when a unit is present and as
`<value>` otherwise; every other entry is skipped. -/
def render_entry_desc (q : Qty) : Option String :=
  match q.value with
  | .number n =>
    if n ≠ 0 then
      some (if q.unit ≠ "" then toString n ++ " " ++ q.unit else toString n)
    else none
  | .numberNoInner => none
  | .other => none

/-- A concrete one-category shopping list used to witness the submission
loop: two produce items. -/
def sample_submission_list : List Category :=
  [⟨"produce", [⟨"apple", []⟩, ⟨"pear", []⟩]⟩]

/-- A concrete submission oracle: the first `saveItem` call succeeds and
every later one raises. -/
def sample_ok : Nat → Bool := fun i => i == 0

/-! ## Helper lemmas -/

/-- The loop body of `format_quantity` agrees entry by entry with the
spec-side rendering rule. -/
theorem format_parts_eq_filterMap (qs : List Qty) :
    format_parts qs = qs.filterMap render_entry_desc := by
  induction qs with
  | nil => rfl
  | cons q rest ih =>
    cases q with
    | mk v u =>
      cases v with
      | number n =>
        by_cases h0 : n = 0
        · simp [format_parts, render_entry_desc, h0, ih]
        · by_cases hu : u = ""
          · simp [format_parts, render_entry_desc, h0, hu, ih]
          · simp [format_parts, render_entry_desc, h0, hu, ih]
      | numberNoInner => simp [format_parts, render_entry_desc, ih]
      | other => simp [format_parts, render_entry_desc, ih]

/-- A list of entries that are all zero-valued or malformed contributes no
parts. -/
theorem format_parts_eq_nil (qs : List Qty)
    (h : ∀ q ∈ qs, q.value = .number 0 ∨ q.value = .numberNoInner
      ∨ q.value = .other) :
    format_parts qs = [] := by
  induction qs with
  | nil => rfl
  | cons q rest ih =>
    rcases h q (by simp) with h1 | h1 | h1 <;>
      simp [format_parts, h1, ih fun x hx => h x (by simp [hx])]

/-- `find?` returns a satisfying element, and everything before it in the
list fails the predicate. -/
theorem find_eq_some_split {α : Type} {p : α → Bool} {l : List α} {a : α}
    (h : l.find? p = some a) :
    p a = true ∧ ∃ pre post, l = pre ++ a :: post ∧ ∀ x ∈ pre, p x = false := by
  induction l with
  | nil => simp [List.find?] at h
  | cons x xs ih =>
    by_cases hx : p x = true
    · rw [List.find?_cons_of_pos _ hx] at h
      injection h with h1
      subst h1
      exact ⟨hx, [], xs, rfl, by simp⟩
    · rw [List.find?_cons_of_neg _ hx] at h
      obtain ⟨hp, pre, post, hsplit, hpre⟩ := ih h
      subst hsplit
      refine ⟨hp, x :: pre, post, rfl, ?_⟩
      intro y hy
      rcases List.mem_cons.mp hy with rfl | hy
      · exact Bool.eq_false_iff.mpr hx
      · exact hpre y hy

/-! ## Claim theorems -/

/-- C2 (amended: entries whose numeric value is zero are skipped along
with entries carrying no numeric value): `format_quantity` renders every
entry carrying a nonzero numeric value as `<value> <unit>` when a unit is
present and as `<value>` otherwise, skips the rest, joins the rendered
parts with `", "` in input order, and returns the empty string on an empty
or all-skipped input; a unit-less entry of value 3 yields `"3"`, an entry
of value 2 with unit `cups` yields `"2 cups"`, and the two together yield
`"3, 2 cups"`. -/
theorem format_quantity_spec (qs : List Qty) :
    format_quantity qs = String.intercalate ", " (qs.filterMap render_entry_desc)
    ∧ format_quantity [] = ""
    ∧ format_quantity [⟨.number 3, ""⟩] = "3"
    ∧ format_quantity [⟨.number 2, "cups"⟩] = "2 cups"
    ∧ format_quantity [⟨.number 3, ""⟩, ⟨.number 2, "cups"⟩] = "3, 2 cups" := by
  refine ⟨?_, rfl, by decide, by decide, by decide⟩
  unfold format_quantity
  by_cases he : qs.isEmpty = true
  · rw [if_pos he, List.isEmpty_iff.mp he]
    rfl
  · rw [if_neg he, format_parts_eq_filterMap]

/-- C2, counterexample to the claim as stated: the entry
`{value: 0, unit: "cups"}` carries a numeric value, yet `format_quantity`
skips it and returns `""` rather than rendering `"0 cups"`. -/
theorem format_quantity_zero_value_cex :
    format_quantity [⟨.number 0, "cups"⟩] = ""
    ∧ ("" : String) ≠ "0 cups" := by
  constructor <;> decide

/-- C10: every quantity entry whose numeric value is zero, or whose value
does not match the nested number shape, is omitted; a sequence consisting
only of such entries formats to the empty string (so such an item is
submitted with an empty specification). -/
theorem format_quantity_zero_entries (qs : List Qty)
    (h : ∀ q ∈ qs, q.value = .number 0 ∨ q.value = .numberNoInner
      ∨ q.value = .other) :
    format_quantity qs = "" := by
  unfold format_quantity
  by_cases he : qs.isEmpty = true
  · rw [if_pos he]
  · rw [if_neg he, format_parts_eq_nil qs h]
    rfl

/-- C10, witness: a concrete all-skipped quantity list formats to `""`. -/
theorem format_quantity_zero_entries_witness :
    format_quantity [⟨.number 0, "g"⟩, ⟨.numberNoInner, "ml"⟩, ⟨.other, ""⟩]
      = "" :=
  format_quantity_zero_entries _ (by decide)

/-- C3: `filter_staples` removes exactly the categories whose lower-cased
name is `staples`, keeps every other category with its full content in
order (the result is a sublist of the input), and is idempotent. -/
theorem filter_staples_spec (l : List Category) :
    (∀ c ∈ filter_staples l, py_lower c.category ≠ "staples")
    ∧ (∀ c ∈ l, py_lower c.category ≠ "staples" → c ∈ filter_staples l)
    ∧ (filter_staples l).Sublist l
    ∧ filter_staples (filter_staples l) = filter_staples l := by
  refine ⟨?_, ?_, List.filter_sublist l, ?_⟩
  · intro c hc
    have := (List.mem_filter.mp hc).2
    simpa using this
  · intro c hc hne
    exact List.mem_filter.mpr ⟨hc, by simpa using hne⟩
  · simp [filter_staples, List.filter_filter]

/-- C1 (amended: the early exit happens only when the *generated* list is
empty, before staples filtering): `interactive_mode` exits without the
send prompt iff the generated list is empty, and otherwise always reaches
the send prompt with the staples-filtered list — even when filtering has
left it empty. -/
theorem interactive_list_phase_spec (sl : List Category) :
    (interactive_list_phase sl = .exitEmptyGenerated ↔ sl = [])
    ∧ (sl ≠ [] →
        interactive_list_phase sl = .sendPrompt (filter_staples sl)) := by
  constructor
  · constructor
    · intro h
      by_cases he : sl.isEmpty = true
      · exact List.isEmpty_iff.mp he
      · unfold interactive_list_phase at h
        rw [if_neg he] at h
        exact InteractiveListOutcome.noConfusion h
    · rintro rfl
      rfl
  · intro hne
    unfold interactive_list_phase
    rw [if_neg (by simpa [List.isEmpty_iff] using hne)]

/-- C1, counterexample to the claim as stated: a generated list whose only
category is `staples` (with one item) is not empty, so the session does
not end early; it reaches the send prompt carrying the empty filtered
list. -/
theorem interactive_staples_only_reaches_prompt :
    interactive_list_phase [⟨"staples", [⟨"salt", []⟩]⟩] = .sendPrompt []
    ∧ filter_staples [⟨"staples", [⟨"salt", []⟩]⟩] = [] := by
  constructor <;> decide

/-- C1, witness: a non-empty generated list reaches the send prompt. -/
theorem interactive_list_phase_witness :
    interactive_list_phase [⟨"produce", [⟨"apple", []⟩]⟩]
      = .sendPrompt (filter_staples [⟨"produce", [⟨"apple", []⟩]⟩]) :=
  (interactive_list_phase_spec _).2 (by decide)

/-- C9 (amended: the keyboard interrupt is caught only around the
interactive-mode calls): with no positional recipe arguments an interrupt
is caught, a cancellation message is printed and the process exits with
status 0; in direct mode no handler is installed and the interrupt
propagates out of `main`. -/
theorem main_interrupt_spec (recipes : List String) :
    (recipes = [] → main_interrupt_model recipes true = .exit 0)
    ∧ (recipes ≠ [] → main_interrupt_model recipes true = .uncaughtInterrupt)
    ∧ main_interrupt_model recipes false = .completed := by
  refine ⟨?_, ?_, ?_⟩
  · rintro rfl
    rfl
  · intro h
    unfold main_interrupt_model
    rw [if_neg (by simpa [List.isEmpty_iff] using h)]
    rfl
  · unfold main_interrupt_model
    by_cases he : recipes.isEmpty = true
    · rw [if_pos he]
      rfl
    · rw [if_neg he]
      rfl

/-- C9, counterexample to the claim as stated: in direct mode (one
positional recipe argument) an interrupt is not caught; `main` does not
exit with status 0 but lets the `KeyboardInterrupt` propagate. -/
theorem main_interrupt_direct_cex :
    main_interrupt_model ["recipe.cook"] true = .uncaughtInterrupt
    ∧ MainOutcome.uncaughtInterrupt ≠ .exit 0 := by
  constructor <;> decide

/-- C9, witness: with no positional arguments an interrupt exits with
status 0. -/
theorem main_interrupt_spec_witness :
    main_interrupt_model [] true = .exit 0 :=
  (main_interrupt_spec []).1 rfl

/-- Any value returned by one iteration of the scaling prompt passed the
code's guard: `scale <= 0` is false for it. -/
theorem scale_step_not_le_zero {s : String} {v : PyFloat}
    (h : scale_step s = some v) : py_le_zero v = false := by
  unfold scale_step at h
  by_cases he : py_strip s = ""
  · rw [if_pos he] at h
    injection h with h1
    rw [← h1]
    decide
  · rw [if_neg he] at h
    cases hp : py_float (py_strip s) with
    | none =>
      rw [hp] at h
      dsimp only at h
      exact Option.noConfusion h
    | some x =>
      rw [hp] at h
      dsimp only at h
      by_cases hx : py_le_zero x = true
      · rw [if_pos hx] at h
        exact Option.noConfusion h
      · rw [if_neg hx] at h
        injection h with h1
        rw [← h1]
        exact Bool.eq_false_iff.mpr hx

/-- An iteration of the scaling prompt accepts its input iff the stripped
input is empty (defaulting to 1) or parses as a float that passes the
`scale <= 0` guard. -/
theorem scale_step_accepts (s : String) :
    (∃ v, scale_step s = some v)
      ↔ (py_strip s = ""
          ∨ ∃ x, py_float (py_strip s) = some x ∧ py_le_zero x = false) := by
  unfold scale_step
  by_cases he : py_strip s = ""
  · simp [he]
  · rw [if_neg he]
    cases hp : py_float (py_strip s) with
    | none => simp [he, hp]
    | some x =>
      dsimp only
      by_cases hx : py_le_zero x = true
      · rw [if_pos hx]
        simp only [he, false_or]
        constructor
        · rintro ⟨v, hv⟩
          exact Option.noConfusion hv
        · rintro ⟨y, hy, hf⟩
          injection hy with h1
          subst h1
          rw [hx] at hf
          exact Bool.noConfusion hf
      · rw [if_neg hx]
        simp only [he, false_or]
        exact ⟨fun _ => ⟨x, rfl, Bool.eq_false_iff.mpr hx⟩, fun _ => ⟨x, rfl⟩⟩

/-- Every value the prompt loop ever returns passed the guard. -/
theorem get_scaling_factor_not_le_zero {inputs : List String} {v : PyFloat}
    (h : get_scaling_factor inputs = some v) : py_le_zero v = false := by
  induction inputs with
  | nil => exact Option.noConfusion h
  | cons s rest ih =>
    unfold get_scaling_factor at h
    cases hs : scale_step s with
    | some w =>
      rw [hs] at h
      dsimp only at h
      injection h with h1
      exact h1 ▸ scale_step_not_le_zero hs
    | none =>
      rw [hs] at h
      dsimp only at h
      exact ih h

/-- C4 (amended: Python float comparison lets NaN through the guard): the
scaling prompt rejects `0`, `-1`, `abc` and `-inf` (the loop re-prompts),
accepts `2`, `0.5`, `2e1`, `1_0` and the empty input (defaulting to 1),
and also accepts `nan`; an input is accepted iff its stripped form is
empty or parses as a float `x` for which the Python comparison `x <= 0`
is false — which admits NaN and positive infinity besides the positive
numbers; every value the prompt returns passed that guard, and every
*finite* returned value is strictly positive, but NaN, which is not
greater than zero, can also be returned. -/
theorem get_scaling_factor_spec :
    scale_step "0" = none ∧ scale_step "-1" = none ∧ scale_step "abc" = none
    ∧ scale_step "-inf" = none
    ∧ scale_step "2" = some (.finite 2)
    ∧ scale_step "0.5" = some (.finite (1 / 2))
    ∧ scale_step "2e1" = some (.finite 20)
    ∧ scale_step "1_0" = some (.finite 10)
    ∧ scale_step "" = some (.finite 1)
    ∧ scale_step "nan" = some .nan
    ∧ (∀ s, (∃ v, scale_step s = some v)
        ↔ (py_strip s = ""
            ∨ ∃ x, py_float (py_strip s) = some x ∧ py_le_zero x = false))
    ∧ (∀ inputs v, get_scaling_factor inputs = some v → py_le_zero v = false)
    ∧ (∀ inputs q, get_scaling_factor inputs = some (.finite q) → 0 < q) := by
  refine ⟨by decide, by decide, by decide, by decide, by decide, ?_, ?_,
    by decide, by decide, by decide, scale_step_accepts,
    fun inputs v h => get_scaling_factor_not_le_zero h, ?_⟩
  · have h0 : py_float (py_strip "0.5")
        = some (.finite (((0 : Nat) : ℚ) + ((5 : Nat) : ℚ) / 10 ^ (1 : Nat))) :=
      rfl
    have h1 : py_float (py_strip "0.5") = some (.finite (1 / 2 : ℚ)) := by
      rw [h0]
      norm_num
    unfold scale_step
    rw [if_neg (by decide : ¬py_strip "0.5" = ""), h1]
    dsimp only
    rw [if_neg (by norm_num [py_le_zero] :
      ¬py_le_zero (PyFloat.finite (1 / 2 : ℚ)) = true)]
  · have h0 : py_float (py_strip "2e1")
        = some (.finite (((2 : Nat) : ℚ) * 10 ^ (1 : Nat))) := rfl
    have h1 : py_float (py_strip "2e1") = some (.finite (20 : ℚ)) := by
      rw [h0]
      norm_num
    unfold scale_step
    rw [if_neg (by decide : ¬py_strip "2e1" = ""), h1]
    dsimp only
    rw [if_neg (by norm_num [py_le_zero] :
      ¬py_le_zero (PyFloat.finite (20 : ℚ)) = true)]
  · intro inputs q h
    have hg := get_scaling_factor_not_le_zero h
    simp only [py_le_zero, decide_eq_false_iff_not] at hg
    exact lt_of_not_le hg

/-- C4, counterexample to the claim as stated: the prompt accepts the
input `nan` — Python `float("nan")` succeeds and `nan <= 0` is False, so
the loop returns NaN — yet NaN is not a positive real number and
`nan > 0` is also False, refuting both the accept-iff-positive-real
equivalence and the invariant that every returned value is strictly
greater than 0. -/
theorem get_scaling_factor_nan_cex :
    scale_step "nan" = some PyFloat.nan
    ∧ get_scaling_factor ["nan"] = some PyFloat.nan
    ∧ py_gt_zero PyFloat.nan = false := by
  refine ⟨by decide, by decide, rfl⟩

/-- C5: target-list resolution is fatal iff the account has no lists;
with a requested name that matches some list case-insensitively, the first
match is selected with no warning; with a requested name matching nothing,
the first list is selected and the warning is issued; with no requested
name, the first list is selected silently. -/
theorem select_target_list_spec (lists : List BringList) (list_name : String) :
    (select_target_list lists list_name = .fatalNoLists ↔ lists = [])
    ∧ (∀ t w, select_target_list lists list_name = .selected t w →
        ((list_name ≠ "" ∧ ∃ u ∈ lists, py_lower u.name = py_lower list_name) →
          w = false ∧ py_lower t.name = py_lower list_name
          ∧ ∃ pre post, lists = pre ++ t :: post
            ∧ ∀ u ∈ pre, py_lower u.name ≠ py_lower list_name)
        ∧ ((list_name ≠ "" ∧ ∀ u ∈ lists, py_lower u.name ≠ py_lower list_name) →
          w = true ∧ ∃ rest, lists = t :: rest)
        ∧ (list_name = "" → w = false ∧ ∃ rest, lists = t :: rest)) := by
  cases lists with
  | nil =>
    refine ⟨by simp [select_target_list], ?_⟩
    intro t w h
    simp [select_target_list] at h
  | cons first rest =>
    have hred : select_target_list (first :: rest) list_name
        = if list_name = "" then .selected first false
          else
            match (first :: rest).find?
                (fun lst => py_lower lst.name == py_lower list_name) with
            | some target => .selected target false
            | none => .selected first true := rfl
    constructor
    · rw [hred]
      constructor
      · intro h
        exfalso
        by_cases hn : list_name = ""
        · rw [if_pos hn] at h
          exact SelectResult.noConfusion h
        · rw [if_neg hn] at h
          cases hf : (first :: rest).find?
              (fun lst => py_lower lst.name == py_lower list_name) with
          | some tgt =>
            rw [hf] at h
            dsimp only at h
            exact SelectResult.noConfusion h
          | none =>
            rw [hf] at h
            dsimp only at h
            exact SelectResult.noConfusion h
      · intro h
        exact List.noConfusion h
    · intro t w h
      rw [hred] at h
      refine ⟨?_, ?_, ?_⟩
      · rintro ⟨hn, u, hu, hmatch⟩
        rw [if_neg hn] at h
        cases hf : (first :: rest).find?
            (fun lst => py_lower lst.name == py_lower list_name) with
        | none =>
          exact absurd (by simp [hmatch])
            (List.find?_eq_none.mp hf u hu)
        | some tgt =>
          rw [hf] at h
          dsimp only at h
          injection h with h1 h2
          subst h1
          obtain ⟨hp, pre, post, hsplit, hpre⟩ := find_eq_some_split hf
          refine ⟨h2.symm, by simpa using hp, pre, post, hsplit, ?_⟩
          intro x hx
          have := hpre x hx
          simpa using this
      · rintro ⟨hn, hall⟩
        rw [if_neg hn] at h
        cases hf : (first :: rest).find?
            (fun lst => py_lower lst.name == py_lower list_name) with
        | some tgt =>
          have h1 : py_lower tgt.name = py_lower list_name := by
            simpa using List.find?_some hf
          exact absurd h1 (hall tgt (List.mem_of_find?_eq_some hf))
        | none =>
          rw [hf] at h
          dsimp only at h
          injection h with h1 h2
          subst h1
          exact ⟨h2.symm, rest, rfl⟩
      · intro hn
        rw [if_pos hn] at h
        injection h with h1 h2
        subst h1
        exact ⟨h2.symm, rest, rfl⟩

/-- C5, witness: a request for `work` (lower case) selects the `Work` list
without warning; in an account with lists `Home` and `Work`, asking for
`Picnic` falls back to `Home` with the warning; an empty account is
fatal. -/
theorem select_target_list_spec_witness :
    select_target_list [⟨"Home", "u1"⟩, ⟨"Work", "u2"⟩] "work"
      = .selected ⟨"Work", "u2"⟩ false
    ∧ select_target_list [⟨"Home", "u1"⟩, ⟨"Work", "u2"⟩] "Picnic"
      = .selected ⟨"Home", "u1"⟩ true
    ∧ select_target_list [] "Picnic" = .fatalNoLists := by
  refine ⟨by decide, by decide, ?_⟩
  exact (select_target_list_spec [] "Picnic").1.mpr rfl

/-- `chars_le` is total. -/
theorem chars_le_total (l m : List Char) :
    chars_le l m = true ∨ chars_le m l = true := by
  induction l generalizing m with
  | nil => exact .inl rfl
  | cons a as ih =>
    cases m with
    | nil => exact .inr rfl
    | cons b bs =>
      by_cases h : a.toNat = b.toNat
      · rcases ih bs with H | H
        · exact .inl (by simp [chars_le, h, H])
        · exact .inr (by simp [chars_le, h.symm, H])
      · rcases Nat.lt_or_ge a.toNat b.toNat with hlt | hge
        · exact .inl (by simp [chars_le, h, hlt])
        · have hne : b.toNat ≠ a.toNat := fun e => h e.symm
          have hlt : b.toNat < a.toNat := lt_of_le_of_ne hge hne
          exact .inr (by simp [chars_le, hne, hlt])

/-- `chars_le` is transitive. -/
theorem chars_le_trans {l m n : List Char} (h1 : chars_le l m = true)
    (h2 : chars_le m n = true) : chars_le l n = true := by
  induction l generalizing m n with
  | nil => rfl
  | cons a as ih =>
    cases m with
    | nil => simp [chars_le] at h1
    | cons b bs =>
      cases n with
      | nil => simp [chars_le] at h2
      | cons c cs =>
        simp only [chars_le] at h1 h2 ⊢
        by_cases hab : a.toNat = b.toNat
        · rw [if_pos hab] at h1
          by_cases hbc : b.toNat = c.toNat
          · rw [if_pos hbc] at h2
            rw [if_pos (hab.trans hbc)]
            exact ih h1 h2
          · rw [if_neg hbc] at h2
            have hc : b.toNat < c.toNat := by simpa using h2
            rw [if_neg (by rw [hab]; exact hbc)]
            simp only [decide_eq_true_eq]
            omega
        · rw [if_neg hab] at h1
          have hab2 : a.toNat < b.toNat := by simpa using h1
          by_cases hbc : b.toNat = c.toNat
          · have hne : a.toNat ≠ c.toNat := by omega
            rw [if_neg hne]
            simp only [decide_eq_true_eq]
            omega
          · rw [if_neg hbc] at h2
            have hbc2 : b.toNat < c.toNat := by simpa using h2
            have hne : a.toNat ≠ c.toNat := by omega
            rw [if_neg hne]
            simp only [decide_eq_true_eq]
            omega

/-- Totality of the modelled Python string order. -/
theorem py_str_le_total (s t : String) :
    py_str_le s t = true ∨ py_str_le t s = true :=
  chars_le_total _ _

/-- Transitivity of the modelled Python string order. -/
theorem py_str_le_trans {a b c : String} (h1 : py_str_le a b = true)
    (h2 : py_str_le b c = true) : py_str_le a c = true :=
  chars_le_trans h1 h2

/-- Inserting into a list yields a permutation of consing. -/
theorem ordered_insert_perm (s : String) (l : List String) :
    (ordered_insert s l).Perm (s :: l) := by
  induction l with
  | nil => exact List.Perm.refl _
  | cons t rest ih =>
    by_cases h : py_str_le s t = true
    · simp only [ordered_insert, if_pos h]
      exact List.Perm.refl _
    · simp only [ordered_insert, if_neg h]
      exact (ih.cons t).trans (List.Perm.swap s t rest)

/-- `py_sorted` permutes its input. -/
theorem py_sorted_perm (l : List String) : (py_sorted l).Perm l := by
  induction l with
  | nil => exact List.Perm.refl _
  | cons s rest ih => exact (ordered_insert_perm s _).trans (ih.cons s)

/-- Members of an insertion are the inserted element or old members. -/
theorem mem_ordered_insert {x s : String} {l : List String}
    (h : x ∈ ordered_insert s l) : x = s ∨ x ∈ l := by
  have := (ordered_insert_perm s l).mem_iff.mp h
  simpa using this

/-- Insertion preserves ascending order. -/
theorem ordered_insert_pairwise {s : String} {l : List String}
    (hl : l.Pairwise fun a b => py_str_le a b = true) :
    (ordered_insert s l).Pairwise fun a b => py_str_le a b = true := by
  induction l with
  | nil => simp [ordered_insert]
  | cons t rest ih =>
    obtain ⟨ht, hrest⟩ := List.pairwise_cons.mp hl
    by_cases h : py_str_le s t = true
    · simp only [ordered_insert, if_pos h]
      refine List.pairwise_cons.mpr ⟨?_, hl⟩
      intro x hx
      rcases List.mem_cons.mp hx with rfl | hx
      · exact h
      · exact py_str_le_trans h (ht x hx)
    · simp only [ordered_insert, if_neg h]
      refine List.pairwise_cons.mpr ⟨?_, ih hrest⟩
      intro x hx
      rcases mem_ordered_insert hx with rfl | hx
      · rcases py_str_le_total t x with H | H
        · exact H
        · exact absurd H h
      · exact ht x hx

/-- `py_sorted` produces an ascending list. -/
theorem py_sorted_pairwise (l : List String) :
    (py_sorted l).Pairwise fun a b => py_str_le a b = true := by
  induction l with
  | nil => simp [py_sorted]
  | cons s rest ih => exact ordered_insert_pairwise ih

/-- C8: the kitchen scanner returns an ascending list containing exactly
the names of the immediate subdirectories that do not start with `.` or
`_` and hold at least one `.cook` file; in particular a root with
`italian` (containing `pasta.cook`) and `.hidden` (containing `x.cook`)
yields exactly `["italian"]`. -/
theorem get_kitchens_spec (root : List DirEntry) :
    (get_kitchens root).Pairwise (fun a b => py_str_le a b = true)
    ∧ (∀ s, s ∈ get_kitchens root
        ↔ ∃ e ∈ root, e.name = s ∧ e.isDir = true
          ∧ ¬starts_with s "." = true ∧ ¬starts_with s "_" = true
          ∧ has_cook_file e.files = true)
    ∧ get_kitchens
        [⟨"italian", true, ["pasta.cook"]⟩, ⟨".hidden", true, ["x.cook"]⟩]
        = ["italian"] := by
  refine ⟨py_sorted_pairwise _, ?_, by decide⟩
  intro s
  unfold get_kitchens
  rw [(py_sorted_perm _).mem_iff, List.mem_filterMap]
  constructor
  · rintro ⟨e, he, hif⟩
    by_cases hc : e.isDir = true ∧ ¬starts_with e.name "." = true
        ∧ ¬starts_with e.name "_" = true ∧ has_cook_file e.files = true
    · rw [if_pos hc] at hif
      injection hif with h1
      subst h1
      exact ⟨e, he, rfl, hc.1, hc.2.1, hc.2.2.1, hc.2.2.2⟩
    · rw [if_neg hc] at hif
      exact Option.noConfusion hif
  · rintro ⟨e, he, rfl, hdir, hdot, hund, hcook⟩
    exact ⟨e, he, by rw [if_pos ⟨hdir, hdot, hund, hcook⟩]⟩

/-- C7: the generator adapter exits fatally (status 1, hence non-zero)
when the external tool is missing, when it exits non-zero (surfacing its
stderr), and when its output fails to parse; on a successful run whose
output parses, it returns the parsed category structure.  The embedding
consumes exactly one invocation outcome: no branch re-runs the tool. -/
theorem generate_shopping_list_spec
    (parseJson : String → Option (List Category)) :
    generate_shopping_list .notFound parseJson = .fatal 1 .toolNotFound
    ∧ (∀ stderr, generate_shopping_list (.error stderr) parseJson
        = .fatal 1 (.toolFailed stderr))
    ∧ (∀ stdout, parseJson stdout = none →
        generate_shopping_list (.success stdout) parseJson
          = .fatal 1 .parseFailed)
    ∧ (∀ stdout sl, parseJson stdout = some sl →
        generate_shopping_list (.success stdout) parseJson = .ok sl)
    ∧ (∀ run c err,
        generate_shopping_list run parseJson = .fatal c err → c ≠ 0) := by
  refine ⟨rfl, fun _ => rfl, ?_, ?_, ?_⟩
  · intro stdout hp
    unfold generate_shopping_list
    dsimp only
    rw [hp]
  · intro stdout sl hp
    unfold generate_shopping_list
    dsimp only
    rw [hp]
  · intro run c err h
    cases run with
    | notFound =>
      injection h with h1 h2
      omega
    | error stderr =>
      injection h with h1 h2
      omega
    | success stdout =>
      unfold generate_shopping_list at h
      dsimp only at h
      cases hp : parseJson stdout with
      | none =>
        rw [hp] at h
        dsimp only at h
        injection h with h1 h2
        omega
      | some sl =>
        rw [hp] at h
        dsimp only at h
        exact GenOutcome.noConfusion h

/-- C7, witness: a parse failure on a successful run is fatal with exit
status 1. -/
theorem generate_shopping_list_spec_witness :
    generate_shopping_list (.success "not json") (fun _ => none)
      = .fatal 1 .parseFailed :=
  (generate_shopping_list_spec (fun _ => none)).2.2.1 "not json" rfl

/-- The submission loop attempts every remaining item in order, records
the formatted specification for each, succeeds exactly where the oracle
says the call returns, and counts exactly the successes. -/
theorem submit_loop_spec (items : List Item) (ok : Nat → Bool) (i : Nat) :
    ((submit_loop items ok i).2.map SubmitEvent.name = items.map Item.name)
    ∧ ((submit_loop items ok i).2.map SubmitEvent.spec
        = items.map fun it => format_quantity it.quantity)
    ∧ ((submit_loop items ok i).2.map SubmitEvent.succeeded
        = (List.range items.length).map fun k => ok (i + k))
    ∧ (submit_loop items ok i).1
        = ((submit_loop items ok i).2.filter SubmitEvent.succeeded).length := by
  induction items generalizing i with
  | nil => exact ⟨rfl, rfl, rfl, rfl⟩
  | cons item rest ih =>
    obtain ⟨h1, h2, h3, h4⟩ := ih (i + 1)
    have hcons : submit_loop (item :: rest) ok i
        = (if ok i then (submit_loop rest ok (i + 1)).1 + 1
            else (submit_loop rest ok (i + 1)).1,
          ⟨item.name, format_quantity item.quantity, ok i⟩
            :: (submit_loop rest ok (i + 1)).2) := rfl
    rw [hcons]
    refine ⟨?_, ?_, ?_, ?_⟩
    · simpa using h1
    · simpa using h2
    · simp only [List.map_cons, List.length_cons, List.range_succ_eq_map,
        List.map_map]
      rw [h3]
      congr 1
      apply List.map_congr_left
      intro k hk
      simp only [Function.comp_apply]
      congr 1
      omega
    · cases hok : ok i <;> simp [hok, List.filter_cons, h4]

/-- C6: when some `saveItem` calls raise, every item of every category is
still attempted in order (each per-item failure is caught individually),
each with its formatted specification; the reported count equals the
number of items whose submission did not raise; and no submitted item is
removed from the trace (the successes are exactly the succeeded events of
the full trace). -/
theorem submit_items_spec (shopping_list : List Category) (ok : Nat → Bool)
    (hfail : ∃ i, i < (all_items shopping_list).length ∧ ok i = false) :
    ((submit_items shopping_list ok).2.map SubmitEvent.name
        = (all_items shopping_list).map Item.name)
    ∧ ((submit_items shopping_list ok).2.map SubmitEvent.spec
        = (all_items shopping_list).map fun it => format_quantity it.quantity)
    ∧ ((submit_items shopping_list ok).2.map SubmitEvent.succeeded
        = (List.range (all_items shopping_list).length).map ok)
    ∧ (submit_items shopping_list ok).1
        = ((submit_items shopping_list ok).2.filter SubmitEvent.succeeded).length := by
  obtain ⟨h1, h2, h3, h4⟩ := submit_loop_spec (all_items shopping_list) ok 0
  exact ⟨h1, h2, by simpa using h3, h4⟩

/-- C6, witness: on a two-item category where the second `saveItem` call
raises, both items are attempted, the count is 1, and the trace keeps the
successful first item. -/
theorem submit_items_spec_witness :
    ((submit_items sample_submission_list sample_ok).2.map SubmitEvent.name
        = (all_items sample_submission_list).map Item.name)
    ∧ ((submit_items sample_submission_list sample_ok).2.map SubmitEvent.spec
        = (all_items sample_submission_list).map
            fun it => format_quantity it.quantity)
    ∧ ((submit_items sample_submission_list sample_ok).2.map
          SubmitEvent.succeeded
        = (List.range (all_items sample_submission_list).length).map sample_ok)
    ∧ (submit_items sample_submission_list sample_ok).1
        = ((submit_items sample_submission_list sample_ok).2.filter
            SubmitEvent.succeeded).length :=
  submit_items_spec sample_submission_list sample_ok ⟨1, by decide, rfl⟩

end CooklangBring
